import Mathlib

/-!
Shallow embedding of the loxops review pipeline (ClaudeService in
src/services/claude.ts and GitHubService.createReviewWithComments in
src/services/github.ts, plus the option wiring in src/index.ts), together
with proofs settling the frozen claims about it.

Modelling conventions:
* JavaScript strings are modelled as Lean `String` / `List Char`; the regex
  operations used by the source are implemented as explicit scanners with
  the same matching semantics (leftmost match, greedy/lazy as in the
  original pattern, `g`-flag scans resuming after the replaced text).
* JavaScript numbers are modelled as `Int` (every number the pipeline
  manipulates is an integer line number or count).
* `JSON.parse` is modelled by an executable recursive-descent parser over
  a JSON value type whose numbers are integers (the review schema only
  uses integer numbers); failure is `none` (a thrown SyntaxError).
* Thrown exceptions are modelled with `Option` / `Except`.
-/

/-- Backtick character (code 96), used by the markdown-fence repair logic. -/
def btChar : Char := Char.ofNat 96

/-- JavaScript regex `\s` / `String.prototype.trim` whitespace class. -/
def isJsWs (c : Char) : Bool :=
  c == ' ' || c == '\t' || c == '\n' || c == '\r' ||
  c == Char.ofNat 0x0b || c == Char.ofNat 0x0c ||
  c == Char.ofNat 0xa0 || c == Char.ofNat 0x1680 ||
  (Char.ofNat 0x2000 ≤ c && c ≤ Char.ofNat 0x200a) ||
  c == Char.ofNat 0x2028 || c == Char.ofNat 0x2029 ||
  c == Char.ofNat 0x202f || c == Char.ofNat 0x205f ||
  c == Char.ofNat 0x3000 || c == Char.ofNat 0xfeff

/-- JSON (RFC 8259) whitespace accepted by `JSON.parse` between tokens. -/
def isJsonWs (c : Char) : Bool :=
  c == ' ' || c == '\t' || c == '\n' || c == '\r'

/-- ASCII decimal digit test (regex `\d`). -/
def isDigitChar (c : Char) : Bool := '0' ≤ c && c ≤ '9'

/-- Lowercase ASCII letter test (regex `[a-z]`). -/
def isLowerAlpha (c : Char) : Bool := 'a' ≤ c && c ≤ 'z'

/-- JavaScript regex line terminators (the characters `.` does not match). -/
def isLineTerm (c : Char) : Bool :=
  c == '\n' || c == '\r' || c == Char.ofNat 0x2028 || c == Char.ofNat 0x2029

/-- Literal-pattern test: does `pat` occur at the start of `l`? -/
def litPre : List Char → List Char → Bool
  | [], _ => true
  | _ :: _, [] => false
  | p :: ps, c :: cs => p == c && litPre ps cs

/-- Substring occurrence test, modelling `String.prototype.includes`. -/
def hasSub (pat : List Char) : List Char → Bool
  | [] => pat.isEmpty
  | c :: rest => litPre pat (c :: rest) || hasSub pat rest

/-- Occurrence test lifted to `String`, modelling `summary.includes(pat)`. -/
def strIncl (s pat : String) : Bool := hasSub pat.data s.data

/-- Decimal digit run to a natural number (`Number.parseInt(d, 10)` on `\d+`). -/
def digitsToNat (ds : List Char) : Nat :=
  ds.foldl (fun a c => a * 10 + (c.toNat - 48)) 0

/-- JavaScript `String.prototype.trim` on a character list. -/
def trimChars (l : List Char) : List Char :=
  ((l.dropWhile isJsWs).reverse.dropWhile isJsWs).reverse

/-- One attempted match of a global regex replace at the current position:
`none` means no match here, `some (rep, remainder)` means the match was
replaced by `rep` and scanning resumes at `remainder` (after the match). -/
def litStep (pat rep : List Char) (l : List Char) : Option (List Char × List Char) :=
  if litPre pat l then some (rep, l.drop pat.length) else none

/-- Driver for a `g`-flag regex replace: try `step` at every position from
the left; on a match emit the replacement and resume after the match (JS
`String.prototype.replace` does not rescan replaced text), otherwise copy
one character and advance.  `fuel` bounds the number of scan steps; every
`step` used in this file consumes at least one character, so `fuel =
length` is always enough. -/
def scanRepl (step : List Char → Option (List Char × List Char)) :
    Nat → List Char → List Char
  | 0, l => l
  | _ + 1, [] => []
  | fuel + 1, c :: rest =>
    match step (c :: rest) with
    | some (rep, remainder) => rep ++ scanRepl step fuel remainder
    | none => c :: scanRepl step fuel rest

/-- Global literal replacement on a string, modelling
`s.replace(/pat/g, rep)` for a literal pattern. -/
def replAll (pat rep : String) (s : String) : String :=
  String.mk (scanRepl (litStep pat.data rep.data) s.data.length s.data)

/-- Decoded JSON values as produced by `JSON.parse`.  Numbers are modelled
as integers: the review schema's only numeric field is the integer `line`.
Object fields are kept in source order (JS preserves insertion order). -/
inductive JsValue where
  | null
  | bool (b : Bool)
  | num (n : Int)
  | str (s : String)
  | arr (items : List JsValue)
  | obj (fields : List (String × JsValue))

/-- Property read `v[k]` on a decoded value: `none` models `undefined`.
For duplicate keys the last occurrence wins, as in JavaScript. -/
def jsGet (v : JsValue) (k : String) : Option JsValue :=
  match v with
  | .obj fields => fields.foldl (fun acc p => if p.1 == k then some p.2 else acc) none
  | _ => none

/-- First-occurrence key list of a decoded object, modelling `Object.keys`. -/
def jsKeys (v : JsValue) : List String :=
  match v with
  | .obj fields =>
    (fields.map Prod.fst).foldl (fun acc k => if acc.contains k then acc else acc ++ [k]) []
  | _ => []

/-- JavaScript truthiness of a possibly-`undefined` decoded value. -/
def jsTruthy (v : Option JsValue) : Bool :=
  match v with
  | none => false
  | some .null => false
  | some (.bool b) => b
  | some (.num n) => n != 0
  | some (.str s) => s != ""
  | some (.arr _) => true
  | some (.obj _) => true

/-- `Array.isArray` on a possibly-`undefined` decoded value. -/
def isArrO (v : Option JsValue) : Bool :=
  match v with
  | some (.arr _) => true
  | _ => false

/-- `typeof x === "string"` on a possibly-`undefined` decoded value. -/
def isStrO (v : Option JsValue) : Bool :=
  match v with
  | some (.str _) => true
  | _ => false

/-- `typeof x === "number"` on a possibly-`undefined` decoded value. -/
def isNumO (v : Option JsValue) : Bool :=
  match v with
  | some (.num _) => true
  | _ => false

/-- String content of a decoded value (used only where the source has
already checked `typeof === "string"` or truthiness). -/
def jsStr (v : Option JsValue) : String :=
  match v with
  | some (.str s) => s
  | _ => ""

/-- Integer content of a decoded value (used only where the source has
already checked `typeof === "number"`). -/
def jsInt (v : Option JsValue) : Int :=
  match v with
  | some (.num n) => n
  | _ => 0

/-- String-typed read of an optional field: the source copies
`comment.priority` untyped; the pipeline only ever distinguishes string
priorities, so the model keeps the string when there is one. -/
def jsStrOpt (v : Option JsValue) : Option String :=
  match v with
  | some (.str s) => some s
  | _ => none

/-- ASCII hexadecimal digit test (for JSON `\uXXXX` escapes). -/
def isHexChar (c : Char) : Bool :=
  isDigitChar c || ('a' ≤ c && c ≤ 'f') || ('A' ≤ c && c ≤ 'F')

/-- Hexadecimal digit value of an ASCII hex character. -/
def hexVal (c : Char) : Nat :=
  c.toNat % 16 + (if isDigitChar c then 0 else 9)

/-- String literal body parser for `JSON.parse`: `l` is the text after the
opening quote; returns the decoded characters and the text after the
closing quote.  Rejects unescaped control characters and unknown escapes,
as `JSON.parse` does. -/
def parseStrBody : Nat → List Char → Option (List Char × List Char)
  | 0, _ => none
  | _ + 1, [] => none
  | fuel + 1, c :: rest =>
    if c == '"' then some ([], rest)
    else if c == '\\' then
      match rest with
      | [] => none
      | e :: rest2 =>
        let dec : Option Char :=
          if e == '"' then some '"'
          else if e == '\\' then some '\\'
          else if e == '/' then some '/'
          else if e == 'b' then some (Char.ofNat 8)
          else if e == 'f' then some (Char.ofNat 12)
          else if e == 'n' then some '\n'
          else if e == 'r' then some '\r'
          else if e == 't' then some '\t'
          else none
        match dec with
        | some d =>
          match parseStrBody fuel rest2 with
          | some (tail, rem) => some (d :: tail, rem)
          | none => none
        | none =>
          if e == 'u' then
            match rest2 with
            | h1 :: h2 :: h3 :: h4 :: rest3 =>
              if isHexChar h1 && isHexChar h2 && isHexChar h3 && isHexChar h4 then
                let code := ((hexVal h1 * 16 + hexVal h2) * 16 + hexVal h3) * 16 + hexVal h4
                match parseStrBody fuel rest3 with
                | some (tail, rem) => some (Char.ofNat code :: tail, rem)
                | none => none
              else none
            | _ => none
          else none
    else if c.toNat < 0x20 then none
    else
      match parseStrBody fuel rest with
      | some (tail, rem) => some (c :: tail, rem)
      | none => none

/-- Integer literal parser for `JSON.parse` (sign and digits with the JSON
no-leading-zero rule; fractional and exponent forms are outside the model,
which only ever decodes integer `line` numbers). -/
def parseIntLit (l : List Char) : Option (Int × List Char) :=
  let (neg, l1) := match l with
    | '-' :: rest => (true, rest)
    | _ => (false, l)
  let ds := l1.takeWhile isDigitChar
  let rest := l1.dropWhile isDigitChar
  if ds.isEmpty then none
  else if ds.length > 1 && litPre ['0'] ds then none
  else
    match rest with
    | '.' :: _ => none
    | 'e' :: _ => none
    | 'E' :: _ => none
    | _ =>
      let v : Int := Int.ofNat (digitsToNat ds)
      some (if neg then -v else v, rest)

mutual

/-- Recursive-descent JSON value parser modelling `JSON.parse` (one value
starting at `l`, after which the caller checks what remains). -/
def parseVal : Nat → List Char → Option (JsValue × List Char)
  | 0, _ => none
  | fuel + 1, l =>
    let l := l.dropWhile isJsonWs
    match l with
    | [] => none
    | c :: rest =>
      if c == '"' then
        match parseStrBody (rest.length + 1) rest with
        | some (chars, rem) => some (.str (String.mk chars), rem)
        | none => none
      else if c == '{' then
        let r := rest.dropWhile isJsonWs
        match r with
        | '}' :: rem => some (.obj [], rem)
        | _ =>
          match parseObjItems fuel r with
          | some (fields, rem) => some (.obj fields, rem)
          | none => none
      else if c == '[' then
        let r := rest.dropWhile isJsonWs
        match r with
        | ']' :: rem => some (.arr [], rem)
        | _ =>
          match parseArrItems fuel r with
          | some (items, rem) => some (.arr items, rem)
          | none => none
      else if litPre ['t', 'r', 'u', 'e'] l then some (.bool true, l.drop 4)
      else if litPre ['f', 'a', 'l', 's', 'e'] l then some (.bool false, l.drop 5)
      else if litPre ['n', 'u', 'l', 'l'] l then some (.null, l.drop 4)
      else
        match parseIntLit l with
        | some (n, rem) => some (.num n, rem)
        | none => none

/-- Object member list parser: positioned at the first member's key. -/
def parseObjItems : Nat → List Char → Option (List (String × JsValue) × List Char)
  | 0, _ => none
  | fuel + 1, l =>
    match l with
    | '"' :: rest =>
      match parseStrBody (rest.length + 1) rest with
      | some (keyChars, afterKey) =>
        let r1 := afterKey.dropWhile isJsonWs
        match r1 with
        | ':' :: r2 =>
          match parseVal fuel r2 with
          | some (v, afterVal) =>
            let r3 := afterVal.dropWhile isJsonWs
            match r3 with
            | ',' :: r4 =>
              match parseObjItems fuel (r4.dropWhile isJsonWs) with
              | some (fields, rem) => some ((String.mk keyChars, v) :: fields, rem)
              | none => none
            | '}' :: rem => some ([(String.mk keyChars, v)], rem)
            | _ => none
          | none => none
        | _ => none
      | none => none
    | _ => none

/-- Array element list parser: positioned at the first element. -/
def parseArrItems : Nat → List Char → Option (List JsValue × List Char)
  | 0, _ => none
  | fuel + 1, l =>
    match parseVal fuel l with
    | some (v, afterVal) =>
      let r := afterVal.dropWhile isJsonWs
      match r with
      | ',' :: r2 =>
        match parseArrItems fuel r2 with
        | some (items, rem) => some (v :: items, rem)
        | none => none
      | ']' :: rem => some ([v], rem)
      | _ => none
    | none => none

end

/-- `JSON.parse`: a single JSON value with optional surrounding whitespace;
`none` models a thrown `SyntaxError`. -/
def jsonParse (s : String) : Option JsValue :=
  match parseVal (s.data.length + 1) s.data with
  | some (v, rest) => if (rest.dropWhile isJsonWs).isEmpty then some v else none
  | none => none

/-- A line comment of a structured review (`ReviewComment` in types.ts,
with the optional `priority` label used by the current ClaudeService). -/
structure ReviewComment where
  path : String
  line : Int
  priority : Option String := none
  body : String
deriving DecidableEq, Repr

/-- A structured review: a summary plus an ordered comment list
(`StructuredReview` in types.ts). -/
structure StructuredReview where
  summary : String
  comments : List ReviewComment
deriving DecidableEq, Repr

/-- The two review-filtering knobs of `ReviewOptions` consumed by
`ClaudeService.filterReviewComments`; `none` models an `undefined` field. -/
structure ReviewOptions where
  commentPriority : Option String := none
  maxComments : Option Int := none
deriving DecidableEq, Repr

/-- Consecutive run of literal `\n` escape sequences (the regex fragment
`(\\n)+`): returns how many two-character `\n` pairs begin `l` and the
text after them. -/
def takeEscNl : List Char → Nat × List Char
  | c1 :: c2 :: rest =>
    if c1 == '\\' && c2 == 'n' then
      let r := takeEscNl rest
      (r.1 + 1, r.2)
    else (0, c1 :: c2 :: rest)
  | l => (0, l)

/-- Sanitizer pattern A, first form:
`` /```\s*(\\n)+\s*([a-z]+)\s*(\\n)+\s*/g `` replaced by
`` fence ++ language ++ "\n" `` (with a literal backslash-n). -/
def stepA1 (l : List Char) : Option (List Char × List Char) :=
  if litPre [btChar, btChar, btChar] l then
    let r1 := (l.drop 3).dropWhile isJsWs
    let p1 := takeEscNl r1
    if p1.1 == 0 then none
    else
      let r2 := p1.2.dropWhile isJsWs
      let lang := r2.takeWhile isLowerAlpha
      if lang.isEmpty then none
      else
        let r3 := (r2.dropWhile isLowerAlpha).dropWhile isJsWs
        let p2 := takeEscNl r3
        if p2.1 == 0 then none
        else
          let r4 := p2.2.dropWhile isJsWs
          some ([btChar, btChar, btChar] ++ lang ++ ['\\', 'n'], r4)
  else none

/-- Sanitizer pattern A, simpler form:
`` /```\s*([a-z]+)\s*\\n/g `` replaced by `` fence ++ language ++ "\n" ``. -/
def stepA2 (l : List Char) : Option (List Char × List Char) :=
  if litPre [btChar, btChar, btChar] l then
    let r1 := (l.drop 3).dropWhile isJsWs
    let lang := r1.takeWhile isLowerAlpha
    if lang.isEmpty then none
    else
      let r2 := (r1.dropWhile isLowerAlpha).dropWhile isJsWs
      if litPre ['\\', 'n'] r2 then
        some ([btChar, btChar, btChar] ++ lang ++ ['\\', 'n'], r2.drop 2)
      else none
  else none

/-- Replacement text emitted by sanitizer pattern B.  The source builds it
with the template
`` `${context}${nl1}\`\`\`<span class="math-inline">\{lang\}</span>{nl2}${codeStart}` ``
in which `\{lang\}` and `{nl2}` are literal text (not interpolations), so
the language and second newline captures are dropped and replaced by this
fixed HTML-ish fragment. -/
def spanFragment : List Char :=
  ("<span class=\"math-inline\">\x7blang\x7d</span>\x7bnl2\x7d").data

/-- Sanitizer pattern B:
`/([:.}])(\\n)([a-z]+)(\\n)(\s*[^`\s{"}])/g` with the broken template
replacement described at `spanFragment`. -/
def stepB (l : List Char) : Option (List Char × List Char) :=
  match l with
  | [] => none
  | c :: rest =>
    if (c == ':' || c == '.' || c == '\x7d') && litPre ['\\', 'n'] rest then
      let r1 := rest.drop 2
      let lang := r1.takeWhile isLowerAlpha
      if lang.isEmpty then none
      else
        let r2 := r1.dropWhile isLowerAlpha
        if litPre ['\\', 'n'] r2 then
          let r3 := r2.drop 2
          let ws := r3.takeWhile isJsWs
          match r3.dropWhile isJsWs with
          | [] => none
          | d :: rest2 =>
            if d == btChar || isJsWs d || d == '\x7b' || d == '"' || d == '\x7d' then none
            else
              some ([c, '\\', 'n'] ++ [btChar, btChar, btChar] ++ spanFragment ++ ws ++ [d],
                rest2)
        else none
    else none

/-- `ClaudeService.sanitizeJsonString`: the six `replace` passes of the
source, in order — collapse doubled backslashes, repair escaped fences
(triple then single), then the three fence-language normalisations. -/
def sanitizeJsonString (s : String) : String :=
  let l0 := s.data
  let l1 := scanRepl (litStep ['\\', '\\'] ['\\']) l0.length l0
  let l2 := scanRepl (litStep ['\\', btChar, '\\', btChar, '\\', btChar] [btChar, btChar, btChar])
    l1.length l1
  let l3 := scanRepl (litStep ['\\', btChar] [btChar]) l2.length l2
  let l4 := scanRepl stepA1 l3.length l3
  let l5 := scanRepl stepA2 l4.length l4
  let l6 := scanRepl stepB l5.length l5
  String.mk l6

/-- Lazy capture of `` (\{[\s\S]*?\}) `` followed by `` \s*``` ``: walk the
text accumulating characters and stop at the first `}` whose remainder is
whitespace followed by a fence. -/
def lazyFenceBody (acc : List Char) : Nat → List Char → Option (List Char × List Char)
  | 0, _ => none
  | _ + 1, [] => none
  | fuel + 1, c :: rest =>
    if c == '\x7d' && litPre [btChar, btChar, btChar] (rest.dropWhile isJsWs) then
      some (acc ++ [c], rest)
    else lazyFenceBody (acc ++ [c]) fuel rest

/-- One attempted match of `` /```(?:json)?\s*(\{[\s\S]*?\})\s*```/ `` at
the current position, returning the capture group (the brace-delimited
body). -/
def tryFenceAt (l : List Char) : Option (List Char) :=
  if litPre [btChar, btChar, btChar] l then
    let r1 := l.drop 3
    let attempt := fun (r2 : List Char) =>
      let r3 := r2.dropWhile isJsWs
      match r3 with
      | '\x7b' :: _ => (lazyFenceBody [] r3.length r3).map Prod.fst
      | _ => none
    match (if litPre ['j', 's', 'o', 'n'] r1 then attempt (r1.drop 4) else none) with
    | some b => some b
    | none => attempt r1
  else none

/-- Leftmost match of the fenced-JSON pattern anywhere in the text. -/
def findFenced : Nat → List Char → Option (List Char)
  | 0, _ => none
  | _ + 1, [] => none
  | fuel + 1, c :: rest =>
    match tryFenceAt (c :: rest) with
    | some b => some b
    | none => findFenced fuel rest

/-- Fallback pattern `/(\{[\s\S]*\})/`: greedy, so the match runs from the
first `{` to the last `}` after it (no match if no `}` follows a `{`). -/
def extractBraces (l : List Char) : Option (List Char) :=
  let t := l.dropWhile (fun c => c != '\x7b')
  match t with
  | [] => none
  | _ :: _ =>
    let r := t.reverse.dropWhile (fun c => c != '\x7d')
    match r with
    | [] => none
    | [_] => none
    | _ => some r.reverse

/-- `ClaudeService.extractJsonFromResponse`: fenced block first, then any
brace-delimited span; the capture is trimmed; `none` models the thrown
extraction error. -/
def extractJsonFromResponse (responseText : String) : Option String :=
  match findFenced responseText.data.length responseText.data with
  | some b => some (String.mk (trimChars b))
  | none =>
    match extractBraces responseText.data with
    | some m => some (String.mk (trimChars m))
    | none => none

/-- Capture of the string-content fragment `((?:\\.|[^"\\])*)` followed by
a closing quote: returns the raw captured characters (escapes included)
and the text after the closing quote.  An escape must not be followed by a
line terminator (`.` does not match those), and the content cannot contain
a bare `"` or `\`. -/
def strContentCapture (acc : List Char) : Nat → List Char → Option (List Char × List Char)
  | 0, _ => none
  | _ + 1, [] => none
  | fuel + 1, c :: rest =>
    if c == '"' then some (acc, rest)
    else if c == '\\' then
      match rest with
      | [] => none
      | e :: rest2 =>
        if isLineTerm e then none
        else strContentCapture (acc ++ [c, e]) fuel rest2
    else strContentCapture (acc ++ [c]) fuel rest

/-- One attempted match of `/"summary"\s*:\s*"((?:\\.|[^"\\])*)"/` at the
current position, returning the raw capture. -/
def trySummaryAt (l : List Char) : Option (List Char) :=
  if litPre ("\"summary\"").data l then
    let r1 := (l.drop 9).dropWhile isJsWs
    match r1 with
    | ':' :: r2 =>
      match r2.dropWhile isJsWs with
      | '"' :: r3 => (strContentCapture [] (r3.length + 1) r3).map Prod.fst
      | _ => none
    | _ => none
  else none

/-- Leftmost match of the summary pattern anywhere in the text. -/
def findSummary : Nat → List Char → Option (List Char)
  | 0, _ => none
  | _ + 1, [] => none
  | fuel + 1, c :: rest =>
    match trySummaryAt (c :: rest) with
    | some g => some g
    | none => findSummary fuel rest

/-- One attempted match of the per-comment pattern
`/\{\s*"path"\s*:\s*"((?:\\.|[^"\\])*)"\s*,\s*"line"\s*:\s*(\d+)\s*,\s*"body"\s*:\s*"((?:\\.|[^"\\])*)"\s*\}/`
at the current position, returning the three raw captures and the text
after the match. -/
def tryCommentAt (l : List Char) : Option ((List Char × List Char × List Char) × List Char) :=
  match l with
  | '\x7b' :: r0 =>
    let r1 := r0.dropWhile isJsWs
    if litPre ("\"path\"").data r1 then
      match (r1.drop 6).dropWhile isJsWs with
      | ':' :: r2 =>
        match r2.dropWhile isJsWs with
        | '"' :: r3 =>
          match strContentCapture [] (r3.length + 1) r3 with
          | none => none
          | some (path, r4) =>
            match r4.dropWhile isJsWs with
            | ',' :: r5 =>
              let r6 := r5.dropWhile isJsWs
              if litPre ("\"line\"").data r6 then
                match (r6.drop 6).dropWhile isJsWs with
                | ':' :: r7 =>
                  let r8 := r7.dropWhile isJsWs
                  let ds := r8.takeWhile isDigitChar
                  if ds.isEmpty then none
                  else
                    match (r8.dropWhile isDigitChar).dropWhile isJsWs with
                    | ',' :: r9 =>
                      let r10 := r9.dropWhile isJsWs
                      if litPre ("\"body\"").data r10 then
                        match (r10.drop 6).dropWhile isJsWs with
                        | ':' :: r11 =>
                          match r11.dropWhile isJsWs with
                          | '"' :: r12 =>
                            match strContentCapture [] (r12.length + 1) r12 with
                            | none => none
                            | some (body, r13) =>
                              match r13.dropWhile isJsWs with
                              | '\x7d' :: r14 => some ((path, ds, body), r14)
                              | _ => none
                          | _ => none
                        | _ => none
                      else none
                    | _ => none
                | _ => none
              else none
            | _ => none
        | _ => none
      | _ => none
    else none
  | _ => none

/-- Global scan collecting every match of the per-comment pattern, in
order, resuming after each match (the `exec` loop of the source). -/
def collectComments : Nat → List Char → List (List Char × List Char × List Char)
  | 0, _ => []
  | _ + 1, [] => []
  | fuel + 1, c :: rest =>
    match tryCommentAt (c :: rest) with
    | some (captures, remainder) => captures :: collectComments fuel remainder
    | none => collectComments fuel rest

/-- One attempted match of `/"comments"\s*:\s*\[([\s\S]*)\]/` at the
current position: the capture is greedy, running to the last `]` in the
remaining text. -/
def tryCommentsBlockAt (l : List Char) : Option (List Char) :=
  if litPre ("\"comments\"").data l then
    let r1 := (l.drop 10).dropWhile isJsWs
    match r1 with
    | ':' :: r2 =>
      match r2.dropWhile isJsWs with
      | '[' :: r3 =>
        let r := r3.reverse.dropWhile (fun c => c != ']')
        match r with
        | [] => none
        | _ :: inner => some inner.reverse
      | _ => none
    | _ => none
  else none

/-- Leftmost match of the comments-block pattern anywhere in the text. -/
def findCommentsBlock : Nat → List Char → Option (List Char)
  | 0, _ => none
  | _ + 1, [] => none
  | fuel + 1, c :: rest =>
    match tryCommentsBlockAt (c :: rest) with
    | some g => some g
    | none => findCommentsBlock fuel rest

/-- Control-character strip `/[\x00-\x08\x0B\x0C\x0E-\x1F]/g → ""` used by
the Tier-2 parser (keeps tab, newline and carriage return). -/
def stripCtrl (l : List Char) : List Char :=
  l.filter (fun c =>
    !(c.toNat ≤ 0x08 || c.toNat == 0x0b || c.toNat == 0x0c ||
      (0x0e ≤ c.toNat && c.toNat ≤ 0x1f)))

/-- Summary unescaping chain of the fallback tiers:
`.replace(/\\n/g,"\n").replace(/\\"/g,'"').replace(/\\`/g,"`").replace(/\\`\\`\\`/g,"```")`
(the final triple-backtick pass can never fire because the single-backtick
pass already removed every `\`` pair; it is kept for fidelity). -/
def unescapeSummary (g : List Char) : List Char :=
  let l1 := scanRepl (litStep ['\\', 'n'] ['\n']) g.length g
  let l2 := scanRepl (litStep ['\\', '"'] ['"']) l1.length l1
  let l3 := scanRepl (litStep ['\\', btChar] [btChar]) l2.length l2
  scanRepl (litStep ['\\', btChar, '\\', btChar, '\\', btChar] [btChar, btChar, btChar])
    l3.length l3

/-- One attempted match of the fallback bodies' language-repair pattern
`/\n([a-z]+)\n(\s*[^`\s])/g`, replaced by `"\n```$1\n$2"` (real newlines,
both captures re-emitted). -/
def stepLangFix (l : List Char) : Option (List Char × List Char) :=
  match l with
  | '\n' :: r0 =>
    let lang := r0.takeWhile isLowerAlpha
    if lang.isEmpty then none
    else
      match r0.dropWhile isLowerAlpha with
      | '\n' :: r1 =>
        let ws := r1.takeWhile isJsWs
        match r1.dropWhile isJsWs with
        | [] => none
        | d :: rest2 =>
          if d == btChar || isJsWs d then none
          else
            some (['\n'] ++ [btChar, btChar, btChar] ++ lang ++ ['\n'] ++ ws ++ [d], rest2)
      | _ => none
  | _ => none

/-- Body unescaping chain of the fallback tiers:
`\n` and `\"` unescapes, then escaped-fence repair (triple before single),
then the language-repair regex. -/
def unescapeBody (g : List Char) : List Char :=
  let l1 := scanRepl (litStep ['\\', 'n'] ['\n']) g.length g
  let l2 := scanRepl (litStep ['\\', '"'] ['"']) l1.length l1
  let l3 := scanRepl (litStep ['\\', btChar, '\\', btChar, '\\', btChar] [btChar, btChar, btChar])
    l2.length l2
  let l4 := scanRepl (litStep ['\\', btChar] [btChar]) l3.length l3
  scanRepl stepLangFix l4.length l4

/-- Path unescaping of the fallback tiers: `.replace(/\\\\/g, "\\")`. -/
def unescapePath (g : List Char) : List Char :=
  scanRepl (litStep ['\\', '\\'] ['\\']) g.length g

/-- Build a `ReviewComment` from the three raw captures of a fallback-tier
comment match (the pushed object has no `priority` field). -/
def fallbackComment (t : List Char × List Char × List Char) : ReviewComment :=
  { path := String.mk (unescapePath t.1)
    line := Int.ofNat (digitsToNat t.2.1)
    priority := none
    body := String.mk (unescapeBody t.2.2) }

/-- `ClaudeService.alternativeJsonParsing` (Tier 2): control-character
strip, then regex extraction of the summary and of the comment objects
inside the `"comments": [...]` block; throws (``.error``) when neither a
summary nor any comment was found. -/
def alternativeJsonParsing (rawJsonString : String) : Except String StructuredReview :=
  let t := stripCtrl rawJsonString.data
  let summaryM := findSummary t.length t
  let summary := match summaryM with
    | some g => String.mk (unescapeSummary g)
    | none => "Fallback: Could not parse summary."
  let comments := match findCommentsBlock t.length t with
    | some inner => (collectComments inner.length inner).map fallbackComment
    | none => []
  if summaryM.isNone && comments.isEmpty then
    .error "Alternative parsing failed to extract any useful data."
  else .ok { summary := summary, comments := comments }

/-- Terminal-degradation sentinel summary produced when Tier 3 finds
neither a summary nor any comment. -/
def parsingFailedSentinel : String :=
  "Code review response parsing failed completely. The response format might be severely incorrect."

/-- `ClaudeService.manualExtractionFallback` (Tier 3): the same regex
strategy applied to its argument without the control-character strip and
without requiring a `"comments"` block; total — when nothing is found the
inner throw is caught and the terminal sentinel review is returned. -/
def manualExtractionFallback (rawResponseText : String) : StructuredReview :=
  let l := rawResponseText.data
  let summaryM := findSummary l.length l
  let summary := match summaryM with
    | some g => String.mk (unescapeSummary g)
    | none => "Fallback: Could not parse summary."
  let comments := (collectComments l.length l).map fallbackComment
  if summaryM.isNone && comments.isEmpty then
    { summary := parsingFailedSentinel, comments := [] }
  else { summary := summary, comments := comments }

/-- Placeholder comment substituted for a structurally invalid element by
`ClaudeService.sanitizeComment`. -/
def placeholderComment : ReviewComment :=
  { path := "unknown", line := 0, priority := none, body := "Error: Invalid comment structure received." }

/-- Post-decode escaped-fence repair applied to a valid comment's body:
`.replace(/\\`\\`\\`/g, "```").replace(/\\`/g, "`")`. -/
def fenceRepair (b : String) : String :=
  let l1 := scanRepl
    (litStep ['\\', btChar, '\\', btChar, '\\', btChar] [btChar, btChar, btChar])
    b.data.length b.data
  String.mk (scanRepl (litStep ['\\', btChar] [btChar]) l1.length l1)

/-- Shape check of `ClaudeService.sanitizeComment`: `path` a string,
`line` a number, `body` a string. -/
def commentShapeOk (c : JsValue) : Bool :=
  isStrO (jsGet c "path") && isNumO (jsGet c "line") && isStrO (jsGet c "body")

/-- `ClaudeService.sanitizeComment`: an element failing the shape check
becomes the placeholder; a valid element keeps its fields, with the
escaped-fence repair applied to the body and the `priority` field copied
along. -/
def sanitizeComment (c : JsValue) : ReviewComment :=
  if commentShapeOk c then
    { path := jsStr (jsGet c "path")
      line := jsInt (jsGet c "line")
      priority := jsStrOpt (jsGet c "priority")
      body := fenceRepair (jsStr (jsGet c "body")) }
  else placeholderComment

/-- Structure validation of `ClaudeService.parseReviewJson`
(`if (!review.summary || !Array.isArray(review.comments)) throw ...`):
`some msg` models the thrown error, whose message lists the fields present. -/
def reviewStructureError (review : JsValue) : Option String :=
  if !jsTruthy (jsGet review "summary") || !isArrO (jsGet review "comments") then
    some ("Invalid review structure. Available fields: " ++
      String.intercalate ", " (jsKeys review) ++ ". Expected 'summary' and 'comments'.")
  else none

/-- `ClaudeService.parseReviewJson`: sanitize, decode, validate the shape,
keep only the two canonical fields, normalize each comment.  (The
unexpected-fields branch of the source reconstructs the same
summary/mapped-comments value as the clean branch; the model merges them.) -/
def parseReviewJson (jsonString : String) : Except String StructuredReview :=
  let sanitizedJson := sanitizeJsonString jsonString
  match jsonParse sanitizedJson with
  | none => .error "SyntaxError: Unexpected token in JSON"
  | some review =>
    match reviewStructureError review with
    | some msg => .error msg
    | none =>
      let comments := match jsGet review "comments" with
        | some (.arr items) => items.map sanitizeComment
        | _ => []
      .ok { summary := jsStr (jsGet review "summary"), comments := comments }

/-- `ClaudeService.getCommentPriority`: critical=3, high=2, medium=1,
low=0; a missing, empty or unrecognized label maps to 0. -/
def getCommentPriority (c : ReviewComment) : Nat :=
  match c.priority with
  | some p =>
    if p == "critical" then 3
    else if p == "high" then 2
    else if p == "medium" then 1
    else 0
  | none => 0

/-- `ClaudeService.getMinPriorityLevel`: the severity floor's ordinal
("all" and anything unrecognized fall to 0). -/
def getMinPriorityLevel (priority : String) : Nat :=
  if priority == "critical" then 3
  else if priority == "high" then 2
  else if priority == "medium" then 1
  else 0

/-- Stable descending insertion: place `c` before the first element whose
ordinal is `≤` its own.  Because the sorted tail always consists of
elements that came after `c` in the input, this realises exactly the order
produced by the stable `Array.prototype.sort` with comparator
`getCommentPriority(b) - getCommentPriority(a)`. -/
def insertDesc (c : ReviewComment) : List ReviewComment → List ReviewComment
  | [] => [c]
  | d :: ds =>
    if getCommentPriority d ≤ getCommentPriority c then c :: d :: ds
    else d :: insertDesc c ds

/-- Stable sort of the comments by descending priority ordinal, modelling
`[...review.comments].sort((a, b) => priority(b) - priority(a))`. -/
def sortByPriorityDesc : List ReviewComment → List ReviewComment
  | [] => []
  | c :: cs => insertDesc c (sortByPriorityDesc cs)

/-- JavaScript truthiness of the optional `commentPriority` string. -/
def strTruthy (v : Option String) : Bool :=
  match v with
  | some s => s != ""
  | none => false

/-- The `sortedComments` local of `filterReviewComments`. -/
def sortedComments (review : StructuredReview) : List ReviewComment :=
  sortByPriorityDesc review.comments

/-- The `filteredComments` local of `filterReviewComments`: the severity
floor, applied only when `options.commentPriority` is truthy. -/
def floorFiltered (opts : ReviewOptions) (review : StructuredReview) : List ReviewComment :=
  match opts.commentPriority with
  | some p =>
    if p != "" then
      (sortedComments review).filter
        (fun c => decide (getMinPriorityLevel p ≤ getCommentPriority c))
    else sortedComments review
  | none => sortedComments review

/-- The comment list after the optional truncation
(`if (maxComments && maxComments > 0) slice(0, maxComments)`). -/
def truncatedComments (opts : ReviewOptions) (review : StructuredReview) : List ReviewComment :=
  match opts.maxComments with
  | some k => if 0 < k then (floorFiltered opts review).take k.toNat else floorFiltered opts review
  | none => floorFiltered opts review

/-- `ClaudeService.filterReviewComments`: sort, floor-filter, truncate,
and annotate the summary when comments were dropped.  An empty comment
list short-circuits to the unchanged review. -/
def filterReviewComments (opts : ReviewOptions) (review : StructuredReview) : StructuredReview :=
  if review.comments.isEmpty then review
  else
    let finalComments := truncatedComments opts review
    let summary :=
      if finalComments.length < review.comments.length then
        review.summary ++ "\n\n_참고: " ++ toString review.comments.length ++ "개 중 " ++
          toString finalComments.length ++ "개의 주요 코멘트만 표시되었습니다. " ++
          toString (review.comments.length - finalComments.length) ++
          "개의 낮은 우선순위 코멘트는 필터링되었습니다._"
      else review.summary
    { summary := summary, comments := finalComments }

/-- `ClaudeService.handleParsingFailure`: Tier 2 on the extracted
substring, then Tier 3 — on the very same substring (the source passes its
`jsonString` argument to `manualExtractionFallback`). -/
def handleParsingFailure (jsonString : String) : StructuredReview :=
  match alternativeJsonParsing jsonString with
  | .ok r => r
  | .error _ => manualExtractionFallback jsonString

/-- `ClaudeService.parseClaudeResponse`: extract, structural parse plus
priority filtering on success, fallback chain on parse failure.  A failed
extraction propagates (caught only by `generateReview`). -/
def parseClaudeResponse (opts : ReviewOptions) (responseText : String) :
    Except String StructuredReview :=
  match extractJsonFromResponse responseText with
  | none => .error "Could not extract JSON review structure from Claude's response"
  | some jsonString =>
    match parseReviewJson jsonString with
    | .ok review => .ok (filterReviewComments opts review)
    | .error _ => .ok (handleParsingFailure jsonString)

/-- The argument handed to the Tier-3 recovery, read off the call wiring:
`parseClaudeResponse` passes the extracted `jsonString` to
`handleParsingFailure`, which passes that same `jsonString` to
`manualExtractionFallback`; `none` when Tier 3 is never reached. -/
def tier3Input (responseText : String) : Option String :=
  match extractJsonFromResponse responseText with
  | none => none
  | some jsonString =>
    match parseReviewJson jsonString with
    | .ok _ => none
    | .error _ =>
      match alternativeJsonParsing jsonString with
      | .ok _ => none
      | .error _ => some jsonString

/-- `ClaudeService.handleGenerationError`: `some msg` models a caught
`Error` with message `msg`, `none` a non-`Error` throwable. -/
def handleGenerationError (errorMessage : Option String) : StructuredReview :=
  match errorMessage with
  | some msg => { summary := "Error generating code review: " ++ msg, comments := [] }
  | none => { summary := "Unknown error generating code review.", comments := [] }

/-- Option wiring of `run()` in src/index.ts for the two filter knobs:
`core.getInput` yields `""` for an unset input, and the options are built
with `commentPriority: commentPriority || "medium"`, so an absent operator
setting becomes the floor `"medium"`. -/
def runOptions (commentPriorityInput : String) (maxCommentsInput : Option Int) : ReviewOptions :=
  { commentPriority := some (if commentPriorityInput == "" then "medium" else commentPriorityInput)
    maxComments := maxCommentsInput }

/-- A changed file as returned by the pull-request file listing: a name
and an optional unified-diff patch. -/
structure PatchFile where
  filename : String
  patch : Option String
deriving DecidableEq, Repr

/-- One attempted match of the hunk-header pattern
`/@@ -\d+(?:,\d+)? \+(\d+)(?:,(\d+))? @@/` at the current position,
returning the derived `{start, end}` range (`end = start + length - 1`,
length defaulting to 1) and the text after the match. -/
def tryHunkAt (l : List Char) : Option ((Int × Int) × List Char) :=
  if litPre ("@@ -").data l then
    let r1 := l.drop 4
    let d1 := r1.takeWhile isDigitChar
    if d1.isEmpty then none
    else
      let r2 := r1.dropWhile isDigitChar
      let r3 := match r2 with
        | ',' :: rest =>
          if (rest.takeWhile isDigitChar).isEmpty then r2 else rest.dropWhile isDigitChar
        | _ => r2
      if litPre (" +").data r3 then
        let r4 := r3.drop 2
        let d2 := r4.takeWhile isDigitChar
        if d2.isEmpty then none
        else
          let r5 := r4.dropWhile isDigitChar
          let (len, r6) : Int × List Char := match r5 with
            | ',' :: rest =>
              let d3 := rest.takeWhile isDigitChar
              if d3.isEmpty then (1, r5) else (Int.ofNat (digitsToNat d3), rest.dropWhile isDigitChar)
            | _ => (1, r5)
          if litPre (" @@").data r6 then
            let start : Int := Int.ofNat (digitsToNat d2)
            some ((start, start + len - 1), r6.drop 3)
          else none
      else none
  else none

/-- All hunk-header ranges of a patch, in order (the `g`-flag scan of
`createReviewWithComments`). -/
def scanHunks : Nat → List Char → List (Int × Int)
  | 0, _ => []
  | _ + 1, [] => []
  | fuel + 1, c :: rest =>
    match tryHunkAt (c :: rest) with
    | some (range, remainder) => range :: scanHunks fuel remainder
    | none => scanHunks fuel rest

/-- Ranges derived from one patch string. -/
def parseHunkRanges (patch : String) : List (Int × Int) :=
  scanHunks patch.data.length patch.data

/-- The `validLineRanges` map: one entry per listed file that has a patch
(files without a patch are skipped and get no key). -/
def buildValidLineRanges (files : List PatchFile) : List (String × List (Int × Int)) :=
  files.foldl
    (fun acc f => match f.patch with
      | none => acc
      | some p => acc ++ [(f.filename, parseHunkRanges p)])
    []

/-- Keyed lookup in the ranges map (`validLineRanges[comment.path]`);
duplicate keys resolve to the last entry, as JS property writes would. -/
def lookupRanges (m : List (String × List (Int × Int))) (path : String) :
    Option (List (Int × Int)) :=
  m.foldl (fun acc e => if e.1 == path then some e.2 else acc) none

/-- The filter predicate of `createReviewWithComments`: reject an empty
body, a non-positive line or an empty path first, then require the
comment's line to fall in some hunk range recorded for its path. -/
def diffRangeKeep (files : List PatchFile) (c : ReviewComment) : Bool :=
  if c.body == "" || decide (c.line ≤ 0) || c.path == "" then false
  else
    match lookupRanges (buildValidLineRanges files) c.path with
    | none => false
    | some ranges => ranges.any (fun r => decide (r.1 ≤ c.line) && decide (c.line ≤ r.2))

/-- A line comment as submitted to the review-creation API call. -/
structure PostedComment where
  path : String
  line : Int
  body : String
deriving DecidableEq, Repr

/-- The `validComments` value of `createReviewWithComments`: the filter
above followed by the projection to `{path, line, body}` (with the
`body || "No comment provided"` default). -/
def validComments (files : List PatchFile) (comments : List ReviewComment) :
    List PostedComment :=
  (comments.filter (diffRangeKeep files)).map
    (fun c =>
      { path := c.path
        line := c.line
        body := if c.body == "" then "No comment provided" else c.body })

/-- The error-summary check of `createReviewWithComments`: the summary is
suppressed when it contains one of three legacy Korean sentinel
substrings. -/
def isErrorSummary (summary : String) : Bool :=
  strIncl summary "코드 리뷰 응답 파싱에 실패했습니다" ||
  strIncl summary "Claude 코드 리뷰 생성 중 오류가 발생했습니다" ||
  strIncl summary "알 수 없는 오류로 코드 리뷰를 생성할 수 없습니다"

/-- What the publishing step posts (success path of the API calls): the
summary note, if any, and the line comments submitted. -/
structure PublishPlan where
  summaryNote : Option String
  lineComments : List PostedComment
deriving DecidableEq, Repr

/-- Decision logic of `GitHubService.createReviewWithComments`: an error
summary suppresses everything (early return); otherwise the summary note
is posted, and line comments are posted exactly when the review has
comments and some survive the diff-range filter. -/
def createReviewWithCommentsPlan (files : List PatchFile) (review : StructuredReview) :
    PublishPlan :=
  if isErrorSummary review.summary then { summaryNote := none, lineComments := [] }
  else
    { summaryNote := some ("# Loxops\n\n## Overall Assessment\n\n" ++ review.summary)
      lineComments :=
        if review.comments.isEmpty then [] else validComments files review.comments }

/-- Membership survives `dropWhile`. -/
theorem mem_dropWhile_of {p : Char → Bool} {a : Char} :
    ∀ {l : List Char}, a ∈ l.dropWhile p → a ∈ l := by
  intro l h
  induction l with
  | nil => simp at h
  | cons c cs ih =>
    rw [List.dropWhile_cons] at h
    split at h
    · exact List.mem_cons_of_mem _ (ih h)
    · exact h

/-- A literal pattern starting with a character absent from the text never
matches at its start. -/
theorem litPre_head_false (x : Char) (ps : List Char) {l : List Char} (h : x ∉ l) :
    litPre (x :: ps) l = false := by
  cases l with
  | nil => rfl
  | cons c cs =>
    have hx : (x == c) = false := by
      refine beq_eq_false_iff_ne.mpr ?_
      intro e
      exact h (e ▸ List.mem_cons_self c cs)
    simp [litPre, hx]

/-- A literal replacement whose pattern starts with a backslash does not
fire on backslash-free text. -/
theorem litStep_bs_none (ps rep : List Char) {l : List Char} (h : '\\' ∉ l) :
    litStep ('\\' :: ps) rep l = none := by
  simp [litStep, litPre_head_false _ _ h]

/-- `takeEscNl` finds no `\n` pair in backslash-free text. -/
theorem takeEscNl_no_bs : ∀ {l : List Char}, '\\' ∉ l → takeEscNl l = (0, l) := by
  intro l h
  match l with
  | [] => rfl
  | [c] => rfl
  | c1 :: c2 :: rest =>
    have h1 : (c1 == '\\') = false := by
      refine beq_eq_false_iff_ne.mpr ?_
      intro e
      exact h (by rw [e]; exact List.mem_cons_self _ _)
    simp [takeEscNl, h1]

/-- No backslash survives a `drop`. -/
theorem no_bs_drop {l : List Char} (n : Nat) (h : '\\' ∉ l) : '\\' ∉ l.drop n :=
  fun hm => h (List.drop_subset n l hm)

/-- No backslash survives a `dropWhile`. -/
theorem no_bs_dropWhile {l : List Char} (p : Char → Bool) (h : '\\' ∉ l) :
    '\\' ∉ l.dropWhile p :=
  fun hm => h (mem_dropWhile_of hm)

/-- Sanitizer pattern A1 does not fire on backslash-free text. -/
theorem stepA1_no_bs {l : List Char} (h : '\\' ∉ l) : stepA1 l = none := by
  unfold stepA1
  split
  · have h1 : '\\' ∉ (l.drop 3).dropWhile isJsWs := no_bs_dropWhile _ (no_bs_drop 3 h)
    simp [takeEscNl_no_bs h1]
  · rfl

/-- Sanitizer pattern A2 does not fire on backslash-free text. -/
theorem stepA2_no_bs {l : List Char} (h : '\\' ∉ l) : stepA2 l = none := by
  unfold stepA2
  split
  · have h1 : '\\' ∉ (((l.drop 3).dropWhile isJsWs).dropWhile isLowerAlpha).dropWhile isJsWs :=
      no_bs_dropWhile _ (no_bs_dropWhile _ (no_bs_dropWhile _ (no_bs_drop 3 h)))
    simp [litPre_head_false _ _ h1]
  · rfl

/-- Sanitizer pattern B does not fire on backslash-free text. -/
theorem stepB_no_bs {l : List Char} (h : '\\' ∉ l) : stepB l = none := by
  cases l with
  | nil => rfl
  | cons c rest =>
    have h1 : '\\' ∉ rest := fun hm => h (List.mem_cons_of_mem _ hm)
    simp [stepB, litPre_head_false _ _ h1]

/-- The scan driver is the identity when the step matches nowhere. -/
theorem scanRepl_id (step : List Char → Option (List Char × List Char))
    (P : List Char → Prop) (hstep : ∀ l, P l → step l = none)
    (htail : ∀ c cs, P (c :: cs) → P cs) :
    ∀ fuel l, P l → scanRepl step fuel l = l := by
  intro fuel
  induction fuel with
  | zero => intro l _; rfl
  | succ n ih =>
    intro l hP
    cases l with
    | nil => rfl
    | cons c cs => simp [scanRepl, hstep _ hP, ih cs (htail _ _ hP)]

/-- Backslash-free inputs are fixed points of the sanitizer: every one of
its six replacement passes needs a backslash somewhere in its pattern. -/
theorem sanitize_fixed {s : String} (h : '\\' ∉ s.data) : sanitizeJsonString s = s := by
  have htail : ∀ c cs, '\\' ∉ (c :: cs) → '\\' ∉ cs :=
    fun c cs hcc hm => hcc (List.mem_cons_of_mem _ hm)
  have e1 := scanRepl_id (litStep ['\\', '\\'] ['\\']) (fun l => '\\' ∉ l)
    (fun l hl => litStep_bs_none _ _ hl) htail s.data.length s.data h
  have e2 := scanRepl_id
    (litStep ['\\', btChar, '\\', btChar, '\\', btChar] [btChar, btChar, btChar])
    (fun l => '\\' ∉ l) (fun l hl => litStep_bs_none _ _ hl) htail s.data.length s.data h
  have e3 := scanRepl_id (litStep ['\\', btChar] [btChar]) (fun l => '\\' ∉ l)
    (fun l hl => litStep_bs_none _ _ hl) htail s.data.length s.data h
  have e4 := scanRepl_id stepA1 (fun l => '\\' ∉ l) (fun l hl => stepA1_no_bs hl) htail
    s.data.length s.data h
  have e5 := scanRepl_id stepA2 (fun l => '\\' ∉ l) (fun l hl => stepA2_no_bs hl) htail
    s.data.length s.data h
  have e6 := scanRepl_id stepB (fun l => '\\' ∉ l) (fun l hl => stepB_no_bs hl) htail
    s.data.length s.data h
  simp only [sanitizeJsonString, e1, e2, e3, e4, e5, e6]

/-- Membership in a stable descending insertion. -/
theorem mem_insertDesc {x c : ReviewComment} :
    ∀ {l : List ReviewComment}, x ∈ insertDesc c l ↔ x = c ∨ x ∈ l := by
  intro l
  induction l with
  | nil => simp [insertDesc]
  | cons d ds ih =>
    rw [insertDesc]
    split
    · simp [List.mem_cons]
    · simp only [List.mem_cons, ih]
      tauto

/-- Stable descending insertion preserves descending sortedness. -/
theorem pairwise_insertDesc {c : ReviewComment} {l : List ReviewComment}
    (h : l.Pairwise (fun a b => getCommentPriority b ≤ getCommentPriority a)) :
    (insertDesc c l).Pairwise (fun a b => getCommentPriority b ≤ getCommentPriority a) := by
  induction l with
  | nil => simp [insertDesc]
  | cons d ds ih =>
    rw [insertDesc]
    rcases List.pairwise_cons.mp h with ⟨hd, hds⟩
    split
    case isTrue hle =>
      refine List.Pairwise.cons ?_ h
      intro x hx
      rcases List.mem_cons.mp hx with rfl | hx'
      · exact hle
      · exact le_trans (hd x hx') hle
    case isFalse hgt =>
      refine List.Pairwise.cons ?_ (ih hds)
      intro x hx
      rcases mem_insertDesc.mp hx with rfl | hx'
      · omega
      · exact hd x hx'

/-- The priority sort is sorted descending by ordinal. -/
theorem pairwise_sortDesc (l : List ReviewComment) :
    (sortByPriorityDesc l).Pairwise (fun a b => getCommentPriority b ≤ getCommentPriority a) := by
  induction l with
  | nil => simp [sortByPriorityDesc]
  | cons c cs ih => exact pairwise_insertDesc ih

/-- Same-ordinal comments pass through a stable descending insertion with
their relative positions intact. -/
theorem filter_insertDesc (k : Nat) (c : ReviewComment) :
    ∀ l : List ReviewComment,
      (insertDesc c l).filter (fun d => getCommentPriority d == k) =
        if getCommentPriority c == k then
          c :: l.filter (fun d => getCommentPriority d == k)
        else l.filter (fun d => getCommentPriority d == k) := by
  intro l
  induction l with
  | nil => by_cases hc : getCommentPriority c = k <;> simp [insertDesc, List.filter_cons, hc]
  | cons d ds ih =>
    rw [insertDesc]
    split
    case isTrue hle =>
      by_cases hc : getCommentPriority c = k <;> simp [List.filter_cons, hc]
    case isFalse hgt =>
      by_cases hc : getCommentPriority c = k
      · have hd : ¬(getCommentPriority d = k) := by omega
        simp [List.filter_cons, ih, hc, hd]
      · simp [List.filter_cons, ih, hc]

/-- Stability of the priority sort: for every ordinal, the same-ordinal
subsequence of the output equals that of the input. -/
theorem filter_sortDesc (k : Nat) :
    ∀ l : List ReviewComment,
      (sortByPriorityDesc l).filter (fun d => getCommentPriority d == k) =
        l.filter (fun d => getCommentPriority d == k) := by
  intro l
  induction l with
  | nil => rfl
  | cons c cs ih =>
    rw [sortByPriorityDesc, filter_insertDesc, ih, List.filter_cons]

/-- The priority sort preserves length. -/
theorem length_insertDesc (c : ReviewComment) :
    ∀ l : List ReviewComment, (insertDesc c l).length = l.length + 1 := by
  intro l
  induction l with
  | nil => rfl
  | cons d ds ih =>
    rw [insertDesc]
    split
    · rfl
    · simp [ih]

/-- The priority sort preserves length. -/
theorem length_sortDesc (l : List ReviewComment) :
    (sortByPriorityDesc l).length = l.length := by
  induction l with
  | nil => rfl
  | cons c cs ih =>
    rw [sortByPriorityDesc, length_insertDesc, ih]
    simp

/-- In a pairwise-related list, every kept element (in `take n`) relates to
every dropped element (in `drop n`). -/
theorem pairwise_take_drop {R : ReviewComment → ReviewComment → Prop}
    {l : List ReviewComment} {n : Nat} (h : l.Pairwise R) :
    ∀ x ∈ l.take n, ∀ y ∈ l.drop n, R x y := by
  rw [← List.take_append_drop n l] at h
  exact (List.pairwise_append.mp h).2.2

/-- The floor-filtered list stays sorted descending. -/
theorem pairwise_floorFiltered (opts : ReviewOptions) (review : StructuredReview) :
    (floorFiltered opts review).Pairwise
      (fun a b => getCommentPriority b ≤ getCommentPriority a) := by
  unfold floorFiltered
  have hs := pairwise_sortDesc review.comments
  cases opts.commentPriority with
  | none => exact hs
  | some p =>
    by_cases hp : p != ""
    · simp only [hp, if_true]
      exact hs.sublist (List.filter_sublist _)
    · simp only [hp, if_false]
      exact hs

/-- Unfolding of membership in the diff-range validator's output. -/
theorem mem_validComments {files : List PatchFile} {comments : List ReviewComment}
    {p : PostedComment} :
    p ∈ validComments files comments ↔
      ∃ c ∈ comments, diffRangeKeep files c = true ∧
        p = { path := c.path, line := c.line,
              body := if c.body == "" then "No comment provided" else c.body } := by
  simp only [validComments, List.mem_map, List.mem_filter]
  constructor
  · rintro ⟨c, ⟨hc, hk⟩, rfl⟩
    exact ⟨c, hc, hk, rfl⟩
  · rintro ⟨c, hc, hk, rfl⟩
    exact ⟨c, ⟨hc, hk⟩, rfl⟩

/-- What passing the diff-range filter entails. -/
theorem keep_spec {files : List PatchFile} {c : ReviewComment}
    (h : diffRangeKeep files c = true) :
    c.body ≠ "" ∧ c.path ≠ "" ∧ 1 ≤ c.line ∧
      ∃ rs, lookupRanges (buildValidLineRanges files) c.path = some rs ∧
        ∃ r ∈ rs, r.1 ≤ c.line ∧ c.line ≤ r.2 := by
  unfold diffRangeKeep at h
  split at h
  · simp at h
  case isFalse hcond =>
    simp only [Bool.or_eq_true, beq_iff_eq, decide_eq_true_eq, not_or] at hcond
    obtain ⟨⟨hbody, hline⟩, hpath⟩ := hcond
    refine ⟨hbody, hpath, by omega, ?_⟩
    cases hl : lookupRanges (buildValidLineRanges files) c.path with
    | none => rw [hl] at h; simp at h
    | some rs =>
      rw [hl] at h
      simp only [List.any_eq_true, Bool.and_eq_true, decide_eq_true_eq] at h
      obtain ⟨r, hr, h1, h2⟩ := h
      exact ⟨rs, rfl, r, hr, h1, h2⟩

/-- Sufficient conditions to pass the diff-range filter. -/
theorem keep_intro {files : List PatchFile} {c : ReviewComment} {rs : List (Int × Int)}
    (hbody : c.body ≠ "") (hpath : c.path ≠ "") (hline : 1 ≤ c.line)
    (hl : lookupRanges (buildValidLineRanges files) c.path = some rs)
    (hr : ∃ r ∈ rs, r.1 ≤ c.line ∧ c.line ≤ r.2) :
    diffRangeKeep files c = true := by
  unfold diffRangeKeep
  rw [if_neg, hl]
  · simp only [List.any_eq_true, Bool.and_eq_true, decide_eq_true_eq]
    obtain ⟨r, hmem, h1, h2⟩ := hr
    exact ⟨r, hmem, h1, h2⟩
  · simp only [Bool.or_eq_true, beq_iff_eq, decide_eq_true_eq, not_or]
    exact ⟨⟨hbody, by omega⟩, hpath⟩

/-- The comment list of the filtered review is always the
sorted/floor-filtered/truncated list (also when the input is empty and the
source short-circuits). -/
theorem filterReviewComments_comments (opts : ReviewOptions) (review : StructuredReview) :
    (filterReviewComments opts review).comments = truncatedComments opts review := by
  by_cases he : review.comments.isEmpty
  · have hc : review.comments = [] := by simpa using he
    have h0 : floorFiltered opts review = [] := by
      unfold floorFiltered sortedComments
      rw [hc]
      cases opts.commentPriority with
      | none => rfl
      | some p => by_cases hp : p != "" <;> simp [hp, sortByPriorityDesc]
    have h1 : truncatedComments opts review = [] := by
      unfold truncatedComments
      rw [h0]
      cases opts.maxComments with
      | none => rfl
      | some k => by_cases hk : 0 < k <;> simp [hk]
    rw [h1]
    simp [filterReviewComments, he, hc]
  · simp [filterReviewComments, he]

/-- A possibly-`undefined` value is string-typed exactly when it is a
present string. -/
theorem isStrO_iff {o : Option JsValue} : isStrO o = true ↔ ∃ s, o = some (.str s) := by
  cases o with
  | none => simp [isStrO]
  | some v => cases v <;> simp [isStrO]

/-- A possibly-`undefined` value is number-typed exactly when it is a
present number. -/
theorem isNumO_iff {o : Option JsValue} : isNumO o = true ↔ ∃ n, o = some (.num n) := by
  cases o with
  | none => simp [isNumO]
  | some v => cases v <;> simp [isNumO]

/-- C1 (code_bug evidence): the publishing step's `isErrorSummary` check
recognizes none of the three sentinel summaries the current pipeline
produces — the terminal parsing-failed sentinel (really returned by
`manualExtractionFallback`), the generation-error sentinel, and the
unknown-error sentinel — so a review carrying the terminal sentinel still
gets its summary note posted instead of being suppressed. -/
theorem c1_error_sentinels_posted :
    isErrorSummary parsingFailedSentinel = false ∧
    isErrorSummary (handleGenerationError (some "boom")).summary = false ∧
    isErrorSummary (handleGenerationError none).summary = false ∧
    (manualExtractionFallback "totally unusable").summary = parsingFailedSentinel ∧
    (createReviewWithCommentsPlan []
      { summary := parsingFailedSentinel, comments := [] }).summaryNote ≠ none := by
  decide

/-- C2 (counterexample): on the raw response `"hello {not json}"` the
structural parse and Tier 2 both fail, yet the string handed to Tier 3 is
the extracted substring `"{not json}"`, not the full raw response — so the
claim that Tier 3 scans the original raw text is false. -/
theorem c2_tier3_raw_input_cx :
    extractJsonFromResponse "hello \x7bnot json\x7d" = some "\x7bnot json\x7d" ∧
    (parseReviewJson "\x7bnot json\x7d").toOption = none ∧
    (alternativeJsonParsing "\x7bnot json\x7d").toOption = none ∧
    tier3Input "hello \x7bnot json\x7d" = some "\x7bnot json\x7d" ∧
    some ("\x7bnot json\x7d" : String) ≠ some ("hello \x7bnot json\x7d" : String) := by
  decide

/-- C2 (amended): whenever extraction succeeds and both the structural
parse and Tier 2 fail, the input scanned by the Tier 3 regexes is the
substring previously extracted by the JSON Extractor (the same string Tier
2 received), not the original raw response. -/
theorem c2_tier3_scans_extracted (raw js : String)
    (hex : extractJsonFromResponse raw = some js)
    (hparse : (parseReviewJson js).toOption = none)
    (htier2 : (alternativeJsonParsing js).toOption = none) :
    tier3Input raw = some js := by
  cases hp : parseReviewJson js with
  | ok r =>
    rw [hp] at hparse
    simp [Except.toOption] at hparse
  | error e =>
    cases ha : alternativeJsonParsing js with
    | ok r =>
      rw [ha] at htier2
      simp [Except.toOption] at htier2
    | error e2 => simp [tier3Input, hex, hp, ha]

/-- Witness for the amended C2 theorem at a concrete raw response. -/
theorem c2_tier3_scans_extracted_witness :
    extractJsonFromResponse "see: \x7b\"bad\": \x7d" = some "\x7b\"bad\": \x7d" ∧
    tier3Input "see: \x7b\"bad\": \x7d" = some "\x7b\"bad\": \x7d" :=
  ⟨by decide, c2_tier3_scans_extracted "see: \x7b\"bad\": \x7d" "\x7b\"bad\": \x7d"
    (by decide) (by decide) (by decide)⟩

/-- C3 (counterexample): the sanitizer is not idempotent — a run of four
backslashes halves on each application (4 → 2 → 1), so the second
application changes the string. -/
theorem c3_sanitizer_not_idempotent_cx :
    sanitizeJsonString (sanitizeJsonString "\\\\\\\\") ≠ sanitizeJsonString "\\\\\\\\" := by
  decide

/-- C3 (amended): the sanitizer is idempotent on every input containing no
backslash character (it is the identity there); full idempotence fails. -/
theorem c3_sanitizer_idempotent_no_backslash (s : String) (h : '\\' ∉ s.data) :
    sanitizeJsonString (sanitizeJsonString s) = sanitizeJsonString s := by
  rw [sanitize_fixed h, sanitize_fixed h]

/-- Witness for the amended C3 theorem at a concrete backslash-free input. -/
theorem c3_sanitizer_idempotent_no_backslash_witness :
    '\\' ∉ ("\x7b\"summary\": \"ok\", \"comments\": []\x7d" : String).data ∧
    sanitizeJsonString (sanitizeJsonString "\x7b\"summary\": \"ok\", \"comments\": []\x7d") =
      sanitizeJsonString "\x7b\"summary\": \"ok\", \"comments\": []\x7d" :=
  ⟨by decide, c3_sanitizer_idempotent_no_backslash
    "\x7b\"summary\": \"ok\", \"comments\": []\x7d" (by decide)⟩

/-- C4 (counterexample): with the options the action wiring builds when
the operator supplies no severity-floor configuration, a low-priority
comment is dropped by the severity-floor step — the default floor is not
"no floor". -/
theorem c4_default_floor_cx :
    (filterReviewComments (runOptions "" none)
      { summary := "S",
        comments := [{ path := "a.ts", line := 1, priority := some "low", body := "b" }] }).comments
      = [] ∧
    ({ summary := "S",
       comments := [{ path := "a.ts", line := 1, priority := some "low", body := "b" }] :
      StructuredReview}).comments ≠ [] := by
  decide

/-- C4 (amended): with no operator severity-floor configuration the
effective floor defaults to "medium" (ordinal 1): the floor step keeps
exactly the sorted comments of ordinal at least 1 (medium, high,
critical) and drops low-labelled and unlabelled ones. -/
theorem c4_default_floor_medium (review : StructuredReview) :
    (runOptions "" none).commentPriority = some "medium" ∧
    getMinPriorityLevel "medium" = 1 ∧
    (filterReviewComments (runOptions "" none) review).comments =
      (sortedComments review).filter (fun c => decide (1 ≤ getCommentPriority c)) ∧
    ∀ c ∈ (filterReviewComments (runOptions "" none) review).comments,
      1 ≤ getCommentPriority c := by
  have hopts : runOptions "" none =
      ({ commentPriority := some "medium", maxComments := none } : ReviewOptions) := by decide
  have hmed : getMinPriorityLevel "medium" = 1 := by decide
  have heq : (filterReviewComments (runOptions "" none) review).comments =
      (sortedComments review).filter (fun c => decide (1 ≤ getCommentPriority c)) := by
    rw [filterReviewComments_comments, hopts]
    simp [truncatedComments, floorFiltered, hmed]
  refine ⟨by rw [hopts], hmed, heq, ?_⟩
  intro c hc
  rw [heq] at hc
  simpa using (List.mem_filter.mp hc).2

/-- Witness for the amended C4 theorem at a concrete review. -/
theorem c4_default_floor_medium_witness :
    (filterReviewComments (runOptions "" none)
      { summary := "W",
        comments := [⟨"a", 3, some "high", "h"⟩, ⟨"b", 4, some "low", "l"⟩] }).comments =
      (sortedComments
        { summary := "W",
          comments := [⟨"a", 3, some "high", "h"⟩, ⟨"b", 4, some "low", "l"⟩] }).filter
        (fun c => decide (1 ≤ getCommentPriority c)) :=
  (c4_default_floor_medium _).2.2.1

/-- C5 (counterexample): a decoded object with a string `summary` (the
empty string) and an array `comments` is rejected by the validation step,
while an object whose `summary` is the (truthy, non-string) number 7
passes it — so "raises exactly when a string summary or an array comments
is lacking" fails in both directions. -/
theorem c5_validation_cx :
    isStrO (jsGet (.obj [("summary", .str ""), ("comments", .arr [])]) "summary") = true ∧
    isArrO (jsGet (.obj [("summary", .str ""), ("comments", .arr [])]) "comments") = true ∧
    reviewStructureError (.obj [("summary", .str ""), ("comments", .arr [])]) ≠ none ∧
    isStrO (jsGet (.obj [("summary", .num 7), ("comments", .arr [])]) "summary") = false ∧
    reviewStructureError (.obj [("summary", .num 7), ("comments", .arr [])]) = none := by
  decide

/-- C5 (amended): the validation raises exactly when the decoded value's
`summary` is absent or JavaScript-falsy (in particular the empty string)
or its `comments` is not an array; an object with a non-empty string
`summary` and an array `comments` always passes; and the raised error
message names the fields present. -/
theorem c5_validation_truthiness (v : JsValue) :
    (reviewStructureError v = none ↔
      jsTruthy (jsGet v "summary") = true ∧ isArrO (jsGet v "comments") = true) ∧
    (∀ s cs, jsGet v "summary" = some (.str s) → s ≠ "" →
      jsGet v "comments" = some (.arr cs) → reviewStructureError v = none) ∧
    (∀ m, reviewStructureError v = some m →
      m = "Invalid review structure. Available fields: " ++
        String.intercalate ", " (jsKeys v) ++ ". Expected 'summary' and 'comments'.") := by
  have hiff : reviewStructureError v = none ↔
      jsTruthy (jsGet v "summary") = true ∧ isArrO (jsGet v "comments") = true := by
    unfold reviewStructureError
    split
    case isTrue hcond =>
      simp only [Bool.or_eq_true, Bool.not_eq_true'] at hcond
      constructor
      · intro h; simp at h
      · rintro ⟨h1, h2⟩
        rcases hcond with hc | hc
        · rw [h1] at hc; simp at hc
        · rw [h2] at hc; simp at hc
    case isFalse hcond =>
      simp only [Bool.or_eq_true, Bool.not_eq_true', not_or] at hcond
      obtain ⟨h1, h2⟩ := hcond
      constructor
      · intro _
        constructor
        · cases hb : jsTruthy (jsGet v "summary") with
          | true => rfl
          | false => exact absurd hb h1
        · cases hb : isArrO (jsGet v "comments") with
          | true => rfl
          | false => exact absurd hb h2
      · intro _; rfl
  refine ⟨hiff, ?_, ?_⟩
  · intro s cs hs hne hcs
    apply hiff.mpr
    constructor
    · rw [hs]; simpa [jsTruthy] using hne
    · rw [hcs]; rfl
  · intro m hm
    unfold reviewStructureError at hm
    split at hm
    · injection hm with h
      exact h.symm
    · simp at hm

/-- Witness for the amended C5 theorem at a concrete decoded object. -/
theorem c5_validation_truthiness_witness :
    reviewStructureError (.obj [("summary", .str "ok"), ("comments", .arr [])]) = none :=
  (c5_validation_truthiness (.obj [("summary", .str "ok"), ("comments", .arr [])])).2.1
    "ok" [] rfl (by decide) rfl

/-- C6 (counterexample): a non-object element becomes the placeholder, as
claimed, but a structurally valid sibling comment is not returned
unchanged — the escaped-backtick repair rewrites its body (here from
`x\`y` with a literal backslash to `x`y`). -/
theorem c6_normalization_cx :
    sanitizeComment (.num 5) = placeholderComment ∧
    sanitizeComment (.obj [("path", .str "a.ts"), ("line", .num 2), ("body", .str "x\\`y")]) ≠
      { path := "a.ts", line := 2, priority := none, body := "x\\`y" } ∧
    (sanitizeComment
      (.obj [("path", .str "a.ts"), ("line", .num 2), ("body", .str "x\\`y")])).body = "x`y" := by
  decide

/-- C6 (amended): comment normalization is per-element and never fails the
response: the output has one comment per input element; every element
failing the path/line/body shape check maps to the placeholder comment;
every valid element keeps its path, line and priority, with only the
escaped-backtick repair applied to its body. -/
theorem c6_normalization_local (items : List JsValue) :
    (items.map sanitizeComment).length = items.length ∧
    ∀ c ∈ items,
      (commentShapeOk c = false → sanitizeComment c = placeholderComment) ∧
      (commentShapeOk c = true → ∃ p n b,
        jsGet c "path" = some (.str p) ∧ jsGet c "line" = some (.num n) ∧
        jsGet c "body" = some (.str b) ∧
        sanitizeComment c = { path := p, line := n,
                              priority := jsStrOpt (jsGet c "priority"),
                              body := fenceRepair b }) := by
  refine ⟨List.length_map _ _, ?_⟩
  intro c _
  constructor
  · intro hbad
    simp [sanitizeComment, hbad]
  · intro hok
    have h1 := hok
    unfold commentShapeOk at h1
    simp only [Bool.and_eq_true] at h1
    obtain ⟨⟨hps, hns⟩, hbs⟩ := h1
    obtain ⟨p, hp⟩ := isStrO_iff.mp hps
    obtain ⟨n, hn⟩ := isNumO_iff.mp hns
    obtain ⟨b, hb⟩ := isStrO_iff.mp hbs
    refine ⟨p, n, b, hp, hn, hb, ?_⟩
    simp [sanitizeComment, hok, hp, hn, hb, jsStr, jsInt]

/-- Witness for the amended C6 theorem at a concrete element list. -/
theorem c6_normalization_local_witness :
    commentShapeOk (.str "oops") = false ∧
    sanitizeComment (.str "oops") = placeholderComment :=
  ⟨by decide,
    ((c6_normalization_local [.str "oops"]).2 (.str "oops") (by simp)).1 (by decide)⟩

/-- C7: with no severity floor and no maximum configured, the ranker's
output is sorted descending by the ordinals critical=3, high=2, medium=1,
low=0 (missing label = 0), and for every ordinal the same-ordinal
subsequence equals that of the input — the sort is stable. -/
theorem c7_ranker_sorted_stable (opts : ReviewOptions) (review : StructuredReview)
    (hfloor : opts.commentPriority = none) (hmax : opts.maxComments = none)
    (_hlabels : ∀ c ∈ review.comments, c.priority ∈
      ([none, some "critical", some "high", some "medium", some "low"] : List (Option String))) :
    (filterReviewComments opts review).comments.Pairwise
      (fun a b => getCommentPriority b ≤ getCommentPriority a) ∧
    ∀ k : Nat,
      (filterReviewComments opts review).comments.filter
        (fun c => getCommentPriority c == k) =
      review.comments.filter (fun c => getCommentPriority c == k) := by
  have hc : (filterReviewComments opts review).comments = sortByPriorityDesc review.comments := by
    rw [filterReviewComments_comments]
    simp [truncatedComments, floorFiltered, sortedComments, hmax, hfloor]
  rw [hc]
  exact ⟨pairwise_sortDesc _, fun k => filter_sortDesc k _⟩

/-- Witness for the C7 theorem at a concrete review. -/
theorem c7_ranker_sorted_stable_witness :
    (filterReviewComments { commentPriority := none, maxComments := none }
      { summary := "W",
        comments := [⟨"a", 1, some "low", "x"⟩, ⟨"b", 2, some "critical", "y"⟩,
          ⟨"c", 3, some "low", "z"⟩] }).comments.Pairwise
      (fun a b => getCommentPriority b ≤ getCommentPriority a) :=
  (c7_ranker_sorted_stable { commentPriority := none, maxComments := none }
    { summary := "W",
      comments := [⟨"a", 1, some "low", "x"⟩, ⟨"b", 2, some "critical", "y"⟩,
        ⟨"c", 3, some "low", "z"⟩] } rfl rfl (by decide)).1

/-- C8: with a configured positive maximum `k`, the output is exactly the
first `k.toNat` entries of the sorted floor-filtered list — truncation
happens after sorting and floor-filtering — its size is `min k m` for `m`
survivors of the floor, and every kept comment has ordinal at least that
of every comment truncated away. -/
theorem c8_truncation_after_sort_filter (opts : ReviewOptions) (review : StructuredReview)
    (k : Int) (hmax : opts.maxComments = some k) (hk : 0 < k) :
    (filterReviewComments opts review).comments = (floorFiltered opts review).take k.toNat ∧
    (filterReviewComments opts review).comments.length =
      min k.toNat (floorFiltered opts review).length ∧
    ∀ c ∈ (filterReviewComments opts review).comments,
      ∀ d ∈ (floorFiltered opts review).drop k.toNat,
        getCommentPriority d ≤ getCommentPriority c := by
  have h1 : (filterReviewComments opts review).comments =
      (floorFiltered opts review).take k.toNat := by
    rw [filterReviewComments_comments]
    simp [truncatedComments, hmax, hk]
  refine ⟨h1, ?_, ?_⟩
  · rw [h1, List.length_take]
  · rw [h1]
    intro c hc d hd
    exact pairwise_take_drop (pairwise_floorFiltered opts review) c hc d hd

/-- Witness for the C8 theorem at a concrete review and maximum. -/
theorem c8_truncation_after_sort_filter_witness :
    (filterReviewComments { commentPriority := none, maxComments := some 2 }
      { summary := "W",
        comments := [⟨"a", 1, none, "1"⟩, ⟨"b", 2, none, "2"⟩, ⟨"c", 3, none, "3"⟩] }).comments =
    (floorFiltered { commentPriority := none, maxComments := some 2 }
      { summary := "W",
        comments := [⟨"a", 1, none, "1"⟩, ⟨"b", 2, none, "2"⟩, ⟨"c", 3, none, "3"⟩] }).take
      ((2 : Int).toNat) :=
  (c8_truncation_after_sort_filter { commentPriority := none, maxComments := some 2 }
    { summary := "W",
      comments := [⟨"a", 1, none, "1"⟩, ⟨"b", 2, none, "2"⟩, ⟨"c", 3, none, "3"⟩] }
    2 rfl (by decide)).1

/-- C9 (counterexample): a comment whose `(path, line)` does fall inside a
hunk-derived range for its path is nevertheless dropped when its body is
empty — so "every comment whose line lies in such an interval for its path
survives" is false. -/
theorem c9_inrange_dropped_cx :
    lookupRanges (buildValidLineRanges
      [{ filename := "a.ts", patch := some "@@ -1,2 +1,10 @@" }]) "a.ts" = some [(1, 10)] ∧
    ((1 : Int) ≤ 5 ∧ (5 : Int) ≤ 10) ∧
    validComments [{ filename := "a.ts", patch := some "@@ -1,2 +1,10 @@" }]
      [{ path := "a.ts", line := 5, priority := none, body := "" }] = [] := by
  decide

/-- C9 (amended): the validator keeps a comment exactly when its body and
path are non-empty, its line is at least 1, and its `(path, line)` falls
inside some hunk-derived `[start, end]` range recorded for that path; a
comment whose path is absent from the range map is always dropped. -/
theorem c9_validator_characterization (files : List PatchFile) (comments : List ReviewComment) :
    (∀ p ∈ validComments files comments, p.body ≠ "" ∧ p.path ≠ "" ∧ 1 ≤ p.line ∧
      ∃ rs, lookupRanges (buildValidLineRanges files) p.path = some rs ∧
        ∃ r ∈ rs, r.1 ≤ p.line ∧ p.line ≤ r.2) ∧
    (∀ c ∈ comments, ∀ rs : List (Int × Int), c.body ≠ "" → c.path ≠ "" → 1 ≤ c.line →
      lookupRanges (buildValidLineRanges files) c.path = some rs →
      (∃ r ∈ rs, r.1 ≤ c.line ∧ c.line ≤ r.2) →
      ({ path := c.path, line := c.line, body := c.body } : PostedComment) ∈
        validComments files comments) ∧
    (∀ path, lookupRanges (buildValidLineRanges files) path = none →
      ∀ p ∈ validComments files comments, p.path ≠ path) := by
  refine ⟨?_, ?_, ?_⟩
  · intro p hp
    obtain ⟨c, hc, hk, rfl⟩ := mem_validComments.mp hp
    obtain ⟨hbody, hpath, hline, rs, hrs, hr⟩ := keep_spec hk
    have hne : ¬((c.body == "") = true) := by simpa using hbody
    rw [if_neg hne]
    exact ⟨hbody, hpath, hline, rs, hrs, hr⟩
  · intro c hc rs hbody hpath hline hrs hr
    apply mem_validComments.mpr
    refine ⟨c, hc, keep_intro hbody hpath hline hrs hr, ?_⟩
    rw [if_neg (by simpa using hbody : ¬((c.body == "") = true))]
  · intro path hnone p hp
    obtain ⟨c, hc, hk, rfl⟩ := mem_validComments.mp hp
    obtain ⟨_, _, _, rs, hrs, _⟩ := keep_spec hk
    intro hpp
    have hcp : c.path = path := hpp
    rw [hcp] at hrs
    rw [hnone] at hrs
    exact Option.noConfusion hrs

/-- Witness for the amended C9 theorem at a concrete diff and comment. -/
theorem c9_validator_characterization_witness :
    ({ path := "a.ts", line := 5, body := "ok" } : PostedComment) ∈
      validComments [{ filename := "a.ts", patch := some "@@ -1,2 +1,10 @@" }]
        [{ path := "a.ts", line := 5, priority := none, body := "ok" }] :=
  (c9_validator_characterization
      [{ filename := "a.ts", patch := some "@@ -1,2 +1,10 @@" }]
      [{ path := "a.ts", line := 5, priority := none, body := "ok" }]).2.1
    { path := "a.ts", line := 5, priority := none, body := "ok" } (by simp)
    [(1, 10)] (by decide) (by decide) (by decide) (by decide)
    ⟨(1, 10), by simp, by decide, by decide⟩

/-- C10: every comment surviving the diff-range validator has a non-empty
path, a non-empty body and a line of at least 1 — the pre-checks run
before the ranges are consulted — so the line-0 placeholder produced by
comment normalization is never published, whatever diff ranges are
supplied. -/
theorem c10_survivors_well_formed (files : List PatchFile) (comments : List ReviewComment) :
    (∀ p ∈ validComments files comments, p.path ≠ "" ∧ p.body ≠ "" ∧ 1 ≤ p.line) ∧
    ({ path := placeholderComment.path, line := placeholderComment.line,
       body := placeholderComment.body } : PostedComment) ∉ validComments files comments := by
  have hall : ∀ p ∈ validComments files comments, p.path ≠ "" ∧ p.body ≠ "" ∧ 1 ≤ p.line := by
    intro p hp
    obtain ⟨c, hc, hk, rfl⟩ := mem_validComments.mp hp
    obtain ⟨hbody, hpath, hline, _⟩ := keep_spec hk
    have hne : ¬((c.body == "") = true) := by simpa using hbody
    rw [if_neg hne]
    exact ⟨hpath, hbody, hline⟩
  refine ⟨hall, ?_⟩
  intro hmem
  have hline := (hall _ hmem).2.2
  simp [placeholderComment] at hline

/-- Witness for the C10 theorem at a concrete diff and surviving comment. -/
theorem c10_survivors_well_formed_witness :
    ({ path := "a.ts", line := 5, body := "ok" } : PostedComment).path ≠ "" ∧
    ({ path := "a.ts", line := 5, body := "ok" } : PostedComment).body ≠ "" ∧
    (1 : Int) ≤ ({ path := "a.ts", line := 5, body := "ok" } : PostedComment).line :=
  (c10_survivors_well_formed [{ filename := "a.ts", patch := some "@@ -1,2 +1,10 @@" }]
    [{ path := "a.ts", line := 5, priority := none, body := "ok" }]).1
    { path := "a.ts", line := 5, body := "ok" } (by decide)
